import Mathlib

/-!
Shallow embedding of the `ai_card_game` engines
(`src/ai_card_game/app/core/...`): the card/deck model, the Texas Hold'em
hand evaluator and betting controller, the Blackjack hand rules and the War
controller, together with theorems settling the specification claims.

Python `list`s become `List`, `dict`-shaped decisions become structures,
unbounded Python ints become `Int` (counts that are always natural use
`Nat`), and operations that can raise (`Deck.draw` on an empty deck,
attribute errors) return `Option`.  `random.shuffle` is modelled by an
explicit permutation parameter `sh`.
-/

/-- `Card` from `app/core/cards.py`: a frozen dataclass with string
`suit` and `rank` fields. -/
structure Card where
  suit : String
  rank : String
deriving DecidableEq, Repr

/-- `SUITS` from `app/core/cards.py`. -/
def SUITS : List String := ["hearts", "diamonds", "clubs", "spades"]

/-- `RANKS` from `app/core/cards.py`. -/
def RANKS : List String :=
  ["A", "2", "3", "4", "5", "6", "7", "8", "9", "10", "J", "Q", "K"]

/-- The list `[Card(suit=s, rank=r) for s in SUITS for r in RANKS]` built by
`Deck.__init__` (cards.py lines 37-39), before the shuffle. -/
def fullDeck : List Card :=
  SUITS.flatMap (fun s => RANKS.map (fun r => Card.mk s r))

/-- `Deck` from `app/core/cards.py`: `__init__` binds the single instance
attribute `_cards` (line 37). -/
structure Deck where
  _cards : List Card
deriving DecidableEq, Repr

/-- Python attribute lookup on a `Deck` instance: `__init__` assigns only
`_cards`, and the class body defines no other data attribute, so looking up
any other name raises `AttributeError`; that failure is modelled by
`none`. -/
def Deck.getattr (d : Deck) (name : String) : Option (List Card) :=
  if name = "_cards" then some d._cards else none

namespace Poker

/-- `card_value` from `app/core/poker/rules.py` (lines 27-29):
`RANK_VALUES.get(card.rank, 0)`. -/
def card_value (c : Card) : Nat :=
  match c.rank with
  | "2" => 2 | "3" => 3 | "4" => 4 | "5" => 5 | "6" => 6 | "7" => 7
  | "8" => 8 | "9" => 9 | "10" => 10 | "J" => 11 | "Q" => 12 | "K" => 13
  | "A" => 14
  | _ => 0

/-- Python `sorted(values, reverse=True)`: descending sort. -/
def sortDesc (l : List Nat) : List Nat :=
  List.insertionSort (fun a b => b ≤ a) l

/-- `len(set(suits)) == 1` from `_evaluate_five_cards` (rules.py line 65). -/
def is_flush (cards : List Card) : Bool :=
  ((cards.map (fun c => c.suit)).dedup).length == 1

/-- `_is_straight` from rules.py lines 126-131: every adjacent pair of the
descending-sorted values differs by exactly one.  (`values[i] - values[i+1]
!= 1` over Python ints is equivalent to `a ≠ b + 1` over `Nat`.) -/
def _is_straight : List Nat → Bool
  | a :: b :: rest => (a == b + 1) && _is_straight (b :: rest)
  | _ => true

/-- Python list comparison `xs > ys` on lists of ints: strict lexicographic
order, a proper prefix comparing smaller. -/
def listGt : List Nat → List Nat → Bool
  | _ :: _, [] => true
  | [], _ => false
  | a :: as, b :: bs => if b < a then true else if a < b then false else listGt as bs

/-- The update condition of the best-hand fold in `evaluate_hand`
(rules.py line 52): `rank > best_rank or (rank == best_rank and
tiebreaker > best_tiebreaker)`. -/
def handBetter (e b : Nat × List Nat × String) : Bool :=
  decide (b.1 < e.1) || (e.1 == b.1 && listGt e.2.1 b.2.1)

/-- The category dispatch of `_evaluate_five_cards` (rules.py lines 76-123),
taking the flags and tallies computed by lines 62-74: `values` is the
(ace-low-normalized) descending value list, `value_counts` the
`Counter(values)` items and `counts` its sorted multiplicities. -/
def classifyFive (flush straight : Bool) (values : List Nat)
    (value_counts : List (Nat × Nat)) (counts : List Nat) :
    Nat × List Nat × String :=
  if flush && straight && values.headD 0 == 14 && values.getD 4 0 == 10 then
    (10, values, "Royal Flush")
  else if flush && straight then
    (9, values, "Straight Flush")
  else if counts = [4, 1] then
    let quad := ((value_counts.filter (fun p => p.2 == 4)).map (fun p => p.1)).headD 0
    let kicker := ((value_counts.filter (fun p => p.2 == 1)).map (fun p => p.1)).headD 0
    (8, [quad, kicker], "Four of a Kind")
  else if counts = [3, 2] then
    let trips := ((value_counts.filter (fun p => p.2 == 3)).map (fun p => p.1)).headD 0
    let pair := ((value_counts.filter (fun p => p.2 == 2)).map (fun p => p.1)).headD 0
    (7, [trips, pair], "Full House")
  else if flush then
    (6, values, "Flush")
  else if straight then
    (5, values, "Straight")
  else if counts = [3, 1, 1] then
    let trips := ((value_counts.filter (fun p => p.2 == 3)).map (fun p => p.1)).headD 0
    let kickers := sortDesc ((value_counts.filter (fun p => p.2 == 1)).map (fun p => p.1))
    (4, trips :: kickers, "Three of a Kind")
  else if counts = [2, 2, 1] then
    let pairs := sortDesc ((value_counts.filter (fun p => p.2 == 2)).map (fun p => p.1))
    let kicker := ((value_counts.filter (fun p => p.2 == 1)).map (fun p => p.1)).headD 0
    (3, pairs ++ [kicker], "Two Pair")
  else if counts = [2, 1, 1, 1] then
    let pair := ((value_counts.filter (fun p => p.2 == 2)).map (fun p => p.1)).headD 0
    let kickers := sortDesc ((value_counts.filter (fun p => p.2 == 1)).map (fun p => p.1))
    (2, pair :: kickers, "Pair")
  else
    (1, values, "High Card")

/-- `_evaluate_five_cards` from rules.py lines 60-123: compute the sorted
values, the flush/straight flags with the ace-low special case (lines
68-71), the value tallies, then dispatch on them. -/
def _evaluate_five_cards (cards : List Card) : Nat × List Nat × String :=
  let values0 := sortDesc (cards.map card_value)
  let straight :=
    if values0 = [14, 5, 4, 3, 2] then true else _is_straight values0
  let values := if values0 = [14, 5, 4, 3, 2] then [5, 4, 3, 2, 1] else values0
  let value_counts := values.dedup.map (fun v => (v, values.count v))
  let counts := sortDesc (value_counts.map (fun p => p.2))
  classifyFive (is_flush cards) straight values value_counts counts

/-- The loop body of `evaluate_hand` (rules.py lines 51-56): keep the
evaluation of `combo` when it beats the best seen so far. -/
def bestStep (best : Nat × List Nat × String) (combo : List Card) :
    Nat × List Nat × String :=
  let e := _evaluate_five_cards combo
  if handBetter e best then e else best

/-- `evaluate_hand` from rules.py lines 32-57: with fewer than five cards a
partial high-card result; otherwise the fold over all 5-card combinations
keeping the best by `(rank, tiebreaker)`. -/
def evaluate_hand (hole_cards community : List Card) : Nat × List Nat × String :=
  let all_cards := hole_cards ++ community
  if all_cards.length < 5 then
    (1, sortDesc (all_cards.map card_value), "High Card")
  else
    (List.sublistsLen 5 all_cards).foldl bestStep (0, [], "High Card")

/-- `compare_hands` from rules.py lines 137-160. -/
def compare_hands (player_hole ai_hole community : List Card) :
    String × String × String :=
  let p := evaluate_hand player_hole community
  let a := evaluate_hand ai_hole community
  if p.1 > a.1 then ("player", p.2.2, a.2.2)
  else if a.1 > p.1 then ("ai", p.2.2, a.2.2)
  else if listGt p.2.1 a.2.1 then ("player", p.2.2, a.2.2)
  else if listGt a.2.1 p.2.1 then ("ai", p.2.2, a.2.2)
  else ("tie", p.2.2, a.2.2)

end Poker

section PokerSanity

example : Poker._evaluate_five_cards
    [⟨"hearts", "A"⟩, ⟨"hearts", "K"⟩, ⟨"hearts", "Q"⟩, ⟨"hearts", "J"⟩, ⟨"hearts", "10"⟩]
    = (10, [14, 13, 12, 11, 10], "Royal Flush") := by decide

example : Poker._evaluate_five_cards
    [⟨"hearts", "A"⟩, ⟨"diamonds", "2"⟩, ⟨"spades", "3"⟩, ⟨"clubs", "4"⟩, ⟨"hearts", "5"⟩]
    = (5, [5, 4, 3, 2, 1], "Straight") := by decide

example : Poker._evaluate_five_cards
    [⟨"hearts", "9"⟩, ⟨"diamonds", "9"⟩, ⟨"spades", "9"⟩, ⟨"clubs", "9"⟩, ⟨"hearts", "2"⟩]
    = (8, [9, 2], "Four of a Kind") := by decide

example : Poker._evaluate_five_cards
    [⟨"hearts", "7"⟩, ⟨"diamonds", "7"⟩, ⟨"spades", "7"⟩, ⟨"hearts", "3"⟩, ⟨"diamonds", "3"⟩]
    = (7, [7, 3], "Full House") := by decide

set_option maxRecDepth 4000 in
example : Poker.evaluate_hand [⟨"hearts", "A"⟩, ⟨"hearts", "K"⟩]
    [⟨"hearts", "Q"⟩, ⟨"hearts", "J"⟩, ⟨"hearts", "10"⟩, ⟨"clubs", "2"⟩, ⟨"diamonds", "3"⟩]
    |>.2.2 = "Royal Flush" := by decide

end PokerSanity

namespace Poker

/-- `PokerState` from `app/core/poker/state.py`.  Python ints are unbounded
and blind posting can drive chips negative, so chip and bet fields are
`Int`. -/
structure PokerState where
  player_hand : List Card := []
  ai_hand : List Card := []
  community_cards : List Card := []
  player_chips : Int := 1000
  ai_chips : Int := 1000
  pot : Int := 0
  current_bet : Int := 0
  player_bet : Int := 0
  ai_bet : Int := 0
  small_blind : Int := 10
  big_blind : Int := 20
  dealer_is_player : Bool := true
  phase : String := "preflop"
  turn : String := "player"
  finished : Bool := false
  winner : Option String := none
  winning_hand : Option String := none
  player_folded : Bool := false
  ai_folded : Bool := false
  player_acted : Bool := false
  ai_acted : Bool := false
deriving DecidableEq, Repr

/-- `PokerController` (controller.py): the mutable state plus the deck,
whose remaining cards are the `_cards` list of the `Deck` object. -/
structure PokerController where
  state : PokerState
  deck : List Card
deriving DecidableEq, Repr

/-- `Deck.draw` (cards.py lines 45-48): `self._cards.pop()` removes the
last element; an empty deck raises `IndexError`, modelled by `none`. -/
def deckDraw (d : List Card) : Option (Card × List Card) :=
  match d.getLast? with
  | none => none
  | some c => some (c, d.dropLast)

/-- `n` successive `Deck.draw` calls, returning the drawn cards in draw
order. -/
def deckDrawN : Nat → List Card → Option (List Card × List Card)
  | 0, d => some ([], d)
  | n + 1, d =>
    match deckDraw d with
    | none => none
    | some (c, d') =>
      match deckDrawN n d' with
      | none => none
      | some (cs, d'') => some (c :: cs, d'')

/-- `PokerController._post_blinds` (controller.py lines 38-63). -/
def post_blinds (s : PokerState) : PokerState :=
  let sb := s.small_blind
  let bb := s.big_blind
  let s :=
    if s.dealer_is_player then
      { s with player_chips := s.player_chips - sb, player_bet := sb,
               ai_chips := s.ai_chips - bb, ai_bet := bb,
               turn := "player", ai_acted := true }
    else
      { s with ai_chips := s.ai_chips - sb, ai_bet := sb,
               player_chips := s.player_chips - bb, player_bet := bb,
               turn := "ai", player_acted := true }
  { s with pot := sb + bb, current_bet := bb }

/-- `PokerController._finish_hand` (controller.py lines 263-277).  Python's
`pot // 2` is floor division, `Int.fdiv`. -/
def finish_hand (winner : String) (s : PokerState) : PokerState :=
  let s := { s with finished := true, winner := some winner }
  let s :=
    if winner = "player" then { s with player_chips := s.player_chips + s.pot }
    else if winner = "ai" then { s with ai_chips := s.ai_chips + s.pot }
    else
      { s with player_chips := s.player_chips + s.pot.fdiv 2,
               ai_chips := s.ai_chips + s.pot.fdiv 2 }
  { s with pot := 0 }

/-- `PokerController._showdown` (controller.py lines 245-261). -/
def showdown (s : PokerState) : PokerState :=
  let s := { s with phase := "showdown" }
  let r := compare_hands s.player_hand s.ai_hand s.community_cards
  let s := { s with winning_hand := some ("You: " ++ r.2.1 ++ ", AI: " ++ r.2.2) }
  finish_hand r.1 s

/-- `PokerController._next_phase` (controller.py lines 209-243): reset the
betting round, give the non-dealer the turn, then burn and deal per phase;
after the river, run the showdown. -/
def next_phase (c : PokerController) : Option PokerController :=
  let s := c.state
  let s := { s with player_bet := 0, ai_bet := 0, current_bet := 0,
                    player_acted := false, ai_acted := false,
                    turn := if s.dealer_is_player then "ai" else "player" }
  if s.phase = "preflop" then
    match deckDraw c.deck with
    | none => none
    | some (_, d1) =>
      match deckDrawN 3 d1 with
      | none => none
      | some (cs, d2) =>
        some ⟨{ s with phase := "flop",
                       community_cards := s.community_cards ++ cs }, d2⟩
  else if s.phase = "flop" then
    match deckDraw c.deck with
    | none => none
    | some (_, d1) =>
      match deckDraw d1 with
      | none => none
      | some (c1, d2) =>
        some ⟨{ s with phase := "turn",
                       community_cards := s.community_cards ++ [c1] }, d2⟩
  else if s.phase = "turn" then
    match deckDraw c.deck with
    | none => none
    | some (_, d1) =>
      match deckDraw d1 with
      | none => none
      | some (c1, d2) =>
        some ⟨{ s with phase := "river",
                       community_cards := s.community_cards ++ [c1] }, d2⟩
  else if s.phase = "river" then
    some ⟨showdown s, c.deck⟩
  else
    some ⟨s, c.deck⟩

/-- `PokerController._next_turn` (controller.py lines 192-207). -/
def next_turn (c : PokerController) : Option PokerController :=
  if c.state.finished then some c
  else if c.state.player_acted && c.state.ai_acted
          && c.state.player_bet == c.state.ai_bet then
    next_phase c
  else
    some ⟨{ c.state with
            turn := if c.state.turn = "player" then "ai" else "player" },
          c.deck⟩

/-- `PokerController.player_action` (controller.py lines 65-127). -/
def player_action (action : String) (amount : Int) (c : PokerController) :
    Option (PokerController × String) :=
  let s := c.state
  if s.finished || s.turn ≠ "player" then some (c, "Not your turn")
  else if action = "fold" then
    some (⟨finish_hand "ai" { s with player_folded := true }, c.deck⟩,
          "You folded")
  else if action = "check" then
    if s.player_bet < s.current_bet then
      some (c, "Cannot check, must call or raise")
    else
      (next_turn ⟨{ s with player_acted := true }, c.deck⟩).map
        (fun c' => (c', "You checked"))
  else if action = "call" then
    let call_amount := min (s.current_bet - s.player_bet) s.player_chips
    let s := { s with player_chips := s.player_chips - call_amount,
                      player_bet := s.player_bet + call_amount,
                      pot := s.pot + call_amount,
                      player_acted := true }
    (next_turn ⟨s, c.deck⟩).map
      (fun c' => (c', "You called $" ++ toString call_amount))
  else if action = "raise" then
    let amount := if amount < s.big_blind then s.big_blind else amount
    let call_amount := s.current_bet - s.player_bet
    let total := min (call_amount + amount) s.player_chips
    let s := { s with player_chips := s.player_chips - total,
                      player_bet := s.player_bet + total,
                      pot := s.pot + total }
    let s := { s with current_bet := s.player_bet,
                      player_acted := true, ai_acted := false }
    (next_turn ⟨s, c.deck⟩).map
      (fun c' => (c', "You raised to $" ++ toString s.current_bet))
  else if action = "all_in" then
    let all_in_amount := s.player_chips
    let s := { s with player_chips := 0,
                      player_bet := s.player_bet + all_in_amount,
                      pot := s.pot + all_in_amount }
    let s :=
      if s.player_bet > s.current_bet then
        { s with current_bet := s.player_bet, ai_acted := false }
      else s
    let s := { s with player_acted := true }
    (next_turn ⟨s, c.deck⟩).map
      (fun c' => (c', "You went all-in for $" ++ toString all_in_amount))
  else
    some (c, "Invalid action")

/-- The `decision` dict consumed by `ai_action`, after the `.get` calls
with their defaults (`"call"` and `40`). -/
structure AIDecision where
  action : String := "call"
  raise_amount : Int := 40
deriving DecidableEq, Repr

/-- `PokerController.ai_action` (controller.py lines 133-190).  A `check`
while a call is owed is coerced to `call`; a raise capped to a non-positive
total degrades to a check. -/
def ai_action (decision : AIDecision) (c : PokerController) :
    Option (PokerController × String × String) :=
  let s := c.state
  if s.finished || s.turn ≠ "ai" then some (c, "none", "")
  else
    let call_amount := s.current_bet - s.ai_bet
    if decision.action = "fold" then
      some (⟨finish_hand "player" { s with ai_folded := true }, c.deck⟩,
            "fold", "AI folds")
    else if decision.action = "check" && !(decide (call_amount > 0)) then
      (next_turn ⟨{ s with ai_acted := true }, c.deck⟩).map
        (fun c' => (c', "check", "AI checks"))
    else
      let action := if decision.action = "check" then "call" else decision.action
      if action = "call" then
        let call_amount := min call_amount s.ai_chips
        let s :=
          if call_amount > 0 then
            { s with ai_chips := s.ai_chips - call_amount,
                     ai_bet := s.ai_bet + call_amount,
                     pot := s.pot + call_amount }
          else s
        let s := { s with ai_acted := true }
        (next_turn ⟨s, c.deck⟩).map
          (fun c' => (c', "call", "AI calls $" ++ toString call_amount))
      else if action = "raise" then
        let total := min (call_amount + decision.raise_amount) s.ai_chips
        if total ≤ 0 then
          (next_turn ⟨{ s with ai_acted := true }, c.deck⟩).map
            (fun c' => (c', "check", "AI checks"))
        else
          let s := { s with ai_chips := s.ai_chips - total,
                            ai_bet := s.ai_bet + total,
                            pot := s.pot + total }
          let s := { s with current_bet := s.ai_bet,
                            ai_acted := true, player_acted := false }
          (next_turn ⟨s, c.deck⟩).map
            (fun c' => (c', "raise", "AI raises to $" ++ toString s.current_bet))
      else
        some (c, "none", "")

/-- The conserved quantity of the chip-conservation claims. -/
def chipSum (s : PokerState) : Int :=
  s.player_chips + s.ai_chips + s.pot

end Poker

namespace Blackjack

/-- `Hand` from `app/core/blackjack/state.py`: owner plus a card list. -/
structure Hand where
  owner : String
  cards : List Card := []
deriving DecidableEq, Repr

/-- The per-card accumulation step of `hand_value`
(`app/core/blackjack/rules.py` lines 8-16): face cards add 10, an Ace adds
11 and is counted, numeric ranks add their `int` value.  (Ranks outside
`RANKS` would make Python's `int(rank)` raise; they do not occur and are
mapped to 0.) -/
def rankAdd (rank : String) : Nat × Nat :=
  match rank with
  | "J" => (10, 0) | "Q" => (10, 0) | "K" => (10, 0)
  | "A" => (11, 1)
  | "2" => (2, 0) | "3" => (3, 0) | "4" => (4, 0) | "5" => (5, 0)
  | "6" => (6, 0) | "7" => (7, 0) | "8" => (8, 0) | "9" => (9, 0)
  | "10" => (10, 0)
  | _ => (0, 0)

/-- The `while total > 21 and aces > 0` loop of `hand_value` (rules.py
lines 18-20): demote one soft Ace per iteration. -/
def softenAces : Nat → Nat → Nat
  | total, 0 => total
  | total, aces + 1 => if total > 21 then softenAces (total - 10) aces else total

/-- `hand_value` from `app/core/blackjack/rules.py` lines 4-22. -/
def hand_value (hand : Hand) : Nat :=
  let acc := hand.cards.foldl
    (fun (tb : Nat × Nat) card =>
      let r := rankAdd card.rank
      (tb.1 + r.1, tb.2 + r.2))
    (0, 0)
  softenAces acc.1 acc.2

/-- `is_bust` from rules.py lines 25-26. -/
def is_bust (hand : Hand) : Bool :=
  hand_value hand > 21

/-- `is_blackjack` from rules.py lines 29-30. -/
def is_blackjack (hand : Hand) : Bool :=
  hand.cards.length == 2 && hand_value hand == 21

end Blackjack

namespace WarGame

/-- `card_value` from `app/core/war/rules.py` (lines 13-15): Ace high. -/
def card_value (c : Card) : Nat :=
  match c.rank with
  | "2" => 2 | "3" => 3 | "4" => 4 | "5" => 5 | "6" => 6 | "7" => 7
  | "8" => 8 | "9" => 9 | "10" => 10 | "J" => 11 | "Q" => 12 | "K" => 13
  | "A" => 14
  | _ => 0

/-- `compare_cards` from `app/core/war/rules.py` lines 18-31. -/
def compare_cards (player_card ai_card : Card) : String :=
  if card_value player_card > card_value ai_card then "player"
  else if card_value ai_card > card_value player_card then "ai"
  else "war"

/-- `WarState` from `app/core/war/state.py`. -/
structure WarState where
  player_pile : List Card := []
  ai_pile : List Card := []
  player_battle_cards : List Card := []
  ai_battle_cards : List Card := []
  war_pot : List Card := []
  in_war : Bool := false
  finished : Bool := false
  winner : Option String := none
  last_result : Option String := none
deriving DecidableEq, Repr

/-- `WarController._finish_game` (controller.py lines 100-103). -/
def finish_game (winner : String) (s : WarState) : WarState :=
  { s with finished := true, winner := some winner }

/-- `WarController.new_game` (controller.py lines 16-28).  Line 22 reads
`deck.cards`, but `Deck.__init__` binds the card list to the attribute
`_cards` and the class defines no `cards` attribute, so the lookup raises
`AttributeError` before any pile is dealt; the raised error is modelled by
`none`.  `sh` stands for the `random.shuffle` permutation. -/
def new_game (sh : List Card → List Card) : Option WarState :=
  let deck : Deck := ⟨sh fullDeck⟩
  match deck.getattr "cards" with
  | none => none
  | some all_cards =>
    let half := all_cards.length / 2
    some { player_pile := all_cards.take half,
           ai_pile := all_cards.drop half }

/-- `new_game` as written to behave (its lines 23-27 applied to the deck's
`_cards` list, which line 22 was evidently meant to read): split the
shuffled deck evenly into the two piles. -/
def new_game_dealt (all_cards : List Card) : WarState :=
  let half := all_cards.length / 2
  { player_pile := all_cards.take half,
    ai_pile := all_cards.drop half }

/-- The `for _ in range(3)` war-escalation loop of `play_round`
(controller.py lines 85-90): each side moves its top card to the war pot if
it still has one. -/
def warDraw : Nat → WarState → WarState
  | 0, s => s
  | n + 1, s =>
    let s :=
      match s.player_pile with
      | [] => s
      | c :: rest => { s with player_pile := rest, war_pot := s.war_pot ++ [c] }
    let s :=
      match s.ai_pile with
      | [] => s
      | c :: rest => { s with ai_pile := rest, war_pot := s.war_pot ++ [c] }
    warDraw n s

/-- `WarController.play_round` (controller.py lines 30-98).  `sh` models
`random.shuffle` applied to the collected battle cards. -/
def play_round (sh : List Card → List Card) (s : WarState) : WarState × String :=
  if s.finished then (s, "game_over")
  else
    match s.player_pile with
    | [] => (finish_game "ai" s, "game_over")
    | player_card :: prest =>
      match s.ai_pile with
      | [] => (finish_game "player" s, "game_over")
      | ai_card :: arest =>
        let s := { s with player_battle_cards := [player_card],
                          ai_battle_cards := [ai_card],
                          player_pile := prest, ai_pile := arest }
        let battle_cards := s.war_pot ++ [player_card, ai_card]
        let s := { s with war_pot := [] }
        let s :=
          if compare_cards player_card ai_card = "player" then
            { s with player_pile := s.player_pile ++ sh battle_cards,
                     last_result := some "player_wins", in_war := false }
          else if compare_cards player_card ai_card = "ai" then
            { s with ai_pile := s.ai_pile ++ sh battle_cards,
                     last_result := some "ai_wins", in_war := false }
          else
            warDraw 3 { s with war_pot := battle_cards, in_war := true,
                               last_result := some "war" }
        let s :=
          if s.player_pile = [] && !s.in_war then finish_game "ai" s
          else if s.ai_pile = [] && !s.in_war then finish_game "player" s
          else s
        (s, s.last_result.getD "game_over")

/-- The card count across the exclusively-owning containers: the two piles
and the war pot. -/
def pileSum (s : WarState) : Nat :=
  s.player_pile.length + s.ai_pile.length + s.war_pot.length

/-- The count the conservation claim speaks about: piles, war pot, and the
battle cards in play. -/
def allCardsCount (s : WarState) : Nat :=
  pileSum s + s.player_battle_cards.length + s.ai_battle_cards.length

/-- `n` successive `play_round` calls. -/
def playRounds (sh : List Card → List Card) : Nat → WarState → WarState
  | 0, s => s
  | n + 1, s => playRounds sh n (play_round sh s).1

end WarGame

section WarSanity

example : (WarGame.play_round id (WarGame.new_game_dealt fullDeck)).2 = "war" := by decide

example : WarGame.allCardsCount
    ((WarGame.play_round id (WarGame.new_game_dealt fullDeck)).1) = 54 := by decide

example : WarGame.new_game id = none := by decide

end WarSanity

section BlackjackSanity

example : Blackjack.hand_value ⟨"player", [⟨"hearts", "A"⟩, ⟨"spades", "A"⟩, ⟨"clubs", "9"⟩]⟩ = 21 := by decide

example : Blackjack.is_blackjack ⟨"player", [⟨"hearts", "K"⟩, ⟨"spades", "Q"⟩]⟩ = false := by decide

end BlackjackSanity

/-! ### Order lemmas for the evaluator's lexicographic comparison -/

namespace Poker

instance : IsTotal Nat (fun a b => b ≤ a) := ⟨fun a b => le_total b a⟩

instance : IsTrans Nat (fun a b => b ≤ a) := ⟨fun _ _ _ h1 h2 => le_trans h2 h1⟩

instance : IsAntisymm Nat (fun a b => b ≤ a) := ⟨fun _ _ h1 h2 => le_antisymm h2 h1⟩

/-- `sortDesc` sends any permutation of a descending-sorted list to that
list. -/
theorem sortDesc_eq {l m : List Nat} (h : l.Perm m)
    (hm : m.Sorted (fun a b => b ≤ a)) : sortDesc l = m :=
  List.eq_of_perm_of_sorted ((List.perm_insertionSort _ l).trans h)
    (List.sorted_insertionSort _ l) hm

theorem listGt_irrefl (l : List Nat) : listGt l l = false := by
  induction l with
  | nil => rfl
  | cons a as ih => simp [listGt, ih]

theorem listGt_trans : ∀ a b c : List Nat,
    listGt a b = true → listGt b c = true → listGt a c = true := by
  intro a
  induction a with
  | nil => intro b c h1 _; cases b <;> simp [listGt] at h1
  | cons x xs ih =>
    intro b c h1 h2
    cases b with
    | nil => cases c <;> simp [listGt] at h2
    | cons y ys =>
      cases c with
      | nil => simp [listGt]
      | cons z zs =>
        simp only [listGt] at h1 h2 ⊢
        split_ifs at h1 h2 ⊢ <;> first
          | rfl
          | omega
          | exact ih _ _ h1 h2

end Poker

namespace Poker

theorem handBetter_eq_false_iff (e b : Nat × List Nat × String) :
    handBetter e b = false ↔
      ¬ b.1 < e.1 ∧ (e.1 = b.1 → listGt e.2.1 b.2.1 = false) := by
  simp only [handBetter, Bool.or_eq_false_iff, Bool.and_eq_false_iff,
    decide_eq_false_iff_not, beq_eq_false_iff_ne, ne_eq]
  tauto

theorem handBetter_eq_true_iff (e b : Nat × List Nat × String) :
    handBetter e b = true ↔
      b.1 < e.1 ∨ (e.1 = b.1 ∧ listGt e.2.1 b.2.1 = true) := by
  simp only [handBetter, Bool.or_eq_true, Bool.and_eq_true,
    decide_eq_true_eq, beq_iff_eq]

/-- A strictly better hand stays strictly better than anything that was not
better than the old best: the step relation of the `evaluate_hand` fold is
compatible with its bound. -/
theorem handBetter_le_lt (x b e : Nat × List Nat × String)
    (hx : handBetter x b = false) (he : handBetter e b = true) :
    handBetter x e = false := by
  rw [handBetter_eq_false_iff] at hx ⊢
  rw [handBetter_eq_true_iff] at he
  obtain ⟨hx1, hx2⟩ := hx
  rcases he with he1 | ⟨he1, he2⟩
  · exact ⟨by omega, fun hxe => absurd hxe (by omega)⟩
  · refine ⟨by omega, fun hxe => ?_⟩
    have hxb : listGt x.2.1 b.2.1 = false := hx2 (by omega)
    cases hgt : listGt x.2.1 e.2.1
    · rfl
    · exact absurd (listGt_trans _ _ _ hgt he2) (by simp [hxb])

theorem handBetter_self (x : Nat × List Nat × String) :
    handBetter x x = false := by
  simp [handBetter, listGt_irrefl]

end Poker

namespace Poker

/-- The best-hand fold never falls below a bound that the initial
accumulator already satisfied. -/
theorem foldBest_mono (combos : List (List Card)) (init x : Nat × List Nat × String)
    (h : handBetter x init = false) :
    handBetter x (combos.foldl bestStep init) = false := by
  induction combos generalizing init with
  | nil => simpa using h
  | cons c cs ih =>
    rw [List.foldl_cons]
    apply ih
    unfold bestStep
    cases he : handBetter (_evaluate_five_cards c) init
    · simpa [he] using h
    · simpa [he] using handBetter_le_lt x init _ h he

/-- Every combination processed by the best-hand fold ends up no better
than the fold's result. -/
theorem foldBest_bound (combos : List (List Card)) (init : Nat × List Nat × String) :
    ∀ c ∈ combos, handBetter (_evaluate_five_cards c) (combos.foldl bestStep init) = false := by
  induction combos generalizing init with
  | nil => simp
  | cons c cs ih =>
    intro c' hc'
    rw [List.foldl_cons]
    rcases List.mem_cons.mp hc' with rfl | h
    · apply foldBest_mono
      unfold bestStep
      cases he : handBetter (_evaluate_five_cards c') init
      · simp [he]
      · simpa [he] using handBetter_self (_evaluate_five_cards c')
    · exact ih (bestStep init c) c' h

/-- The best-hand fold returns its initial accumulator or the evaluation of
one of the processed combinations. -/
theorem foldBest_mem (combos : List (List Card)) (init : Nat × List Nat × String) :
    combos.foldl bestStep init = init ∨
      ∃ c ∈ combos, combos.foldl bestStep init = _evaluate_five_cards c := by
  induction combos generalizing init with
  | nil => left; rfl
  | cons c cs ih =>
    rw [List.foldl_cons]
    rcases ih (bestStep init c) with h | ⟨c', hc', h⟩
    · rw [h]
      unfold bestStep
      cases he : handBetter (_evaluate_five_cards c) init
      · simp [he]
      · right
        exact ⟨c, List.mem_cons_self c cs, by simp [he]⟩
    · right
      exact ⟨c', List.mem_cons_of_mem c hc', h⟩

end Poker

namespace Poker

/-- Every branch of the category dispatch returns a rank between 1 (high
card) and 10 (royal flush). -/
theorem classifyFive_rank_bounds (flush straight : Bool) (values : List Nat)
    (value_counts : List (Nat × Nat)) (counts : List Nat) :
    1 ≤ (classifyFive flush straight values value_counts counts).1 ∧
      (classifyFive flush straight values value_counts counts).1 ≤ 10 := by
  simp only [classifyFive]
  constructor
  all_goals repeat' split
  all_goals norm_num

/-- Every hand evaluation carries a category rank between 1 and 10. -/
theorem eval5_rank_bounds (cards : List Card) :
    1 ≤ (_evaluate_five_cards cards).1 ∧ (_evaluate_five_cards cards).1 ≤ 10 := by
  unfold _evaluate_five_cards
  exact classifyFive_rank_bounds _ _ _ _ _

end Poker

/-- C1: with at least five cards available, `evaluate_hand` returns the
evaluation of one of the 5-card combinations (21 of them from 7 cards) and
no combination evaluates better under the code's lexicographic
`(category_rank, tie_break_vector)` comparison; category ranks run from 1
(high card) to 10 (royal flush). -/
theorem c1_evaluate_hand_is_max (hole_cards community : List Card)
    (hlen : 5 ≤ (hole_cards ++ community).length) :
    (∃ combo ∈ List.sublistsLen 5 (hole_cards ++ community),
        Poker.evaluate_hand hole_cards community = Poker._evaluate_five_cards combo) ∧
    (∀ combo ∈ List.sublistsLen 5 (hole_cards ++ community),
        Poker.handBetter (Poker._evaluate_five_cards combo)
          (Poker.evaluate_hand hole_cards community) = false) ∧
    (∀ combo : List Card,
        1 ≤ (Poker._evaluate_five_cards combo).1 ∧
          (Poker._evaluate_five_cards combo).1 ≤ 10) ∧
    ((hole_cards ++ community).length = 7 →
        (List.sublistsLen 5 (hole_cards ++ community)).length = 21) := by
  have hnot : ¬ (hole_cards ++ community).length < 5 := by omega
  have heval : Poker.evaluate_hand hole_cards community =
      (List.sublistsLen 5 (hole_cards ++ community)).foldl Poker.bestStep
        (0, [], "High Card") := by
    simp only [Poker.evaluate_hand]
    rw [if_neg hnot]
  refine ⟨?_, ?_, fun combo => Poker.eval5_rank_bounds combo, ?_⟩
  · rcases Poker.foldBest_mem (List.sublistsLen 5 (hole_cards ++ community))
        (0, [], "High Card") with h | ⟨c, hc, h⟩
    · exfalso
      have htk : (hole_cards ++ community).take 5 ∈
          List.sublistsLen 5 (hole_cards ++ community) := by
        rw [List.mem_sublistsLen]
        exact ⟨List.take_sublist _ _, by rw [List.length_take]; omega⟩
      have hb := Poker.foldBest_bound (List.sublistsLen 5 (hole_cards ++ community))
        (0, [], "High Card") _ htk
      rw [h] at hb
      rw [Poker.handBetter_eq_false_iff] at hb
      exact hb.1 ((Poker.eval5_rank_bounds ((hole_cards ++ community).take 5)).1)
    · exact ⟨c, hc, heval ▸ h⟩
  · intro combo hcombo
    rw [heval]
    exact Poker.foldBest_bound _ _ combo hcombo
  · intro h7
    rw [List.length_sublistsLen, h7]
    decide

/-- Witness for C1 at a concrete 7-card input. -/
theorem c1_evaluate_hand_is_max_witness :
    ∃ combo ∈ List.sublistsLen 5
        ([⟨"hearts", "A"⟩, ⟨"hearts", "K"⟩] ++
          [⟨"hearts", "Q"⟩, ⟨"hearts", "J"⟩, ⟨"hearts", "10"⟩,
            ⟨"clubs", "2"⟩, ⟨"diamonds", "3"⟩] : List Card),
      Poker.evaluate_hand [⟨"hearts", "A"⟩, ⟨"hearts", "K"⟩]
          [⟨"hearts", "Q"⟩, ⟨"hearts", "J"⟩, ⟨"hearts", "10"⟩,
            ⟨"clubs", "2"⟩, ⟨"diamonds", "3"⟩] = Poker._evaluate_five_cards combo :=
  (c1_evaluate_hand_is_max
    [⟨"hearts", "A"⟩, ⟨"hearts", "K"⟩]
    [⟨"hearts", "Q"⟩, ⟨"hearts", "J"⟩, ⟨"hearts", "10"⟩,
      ⟨"clubs", "2"⟩, ⟨"diamonds", "3"⟩] (by decide)).1

/-- C6: any five cards whose values are a permutation of {A,5,4,3,2}
evaluate as the ace-low straight: category 5 (9 when all suits agree) with
the tie-break vector [5,4,3,2,1] normalizing the Ace to rank 1, and any
6-high straight of matching flushness beats it under the code's
comparison. -/
theorem c6_ace_low_straight (cards cards6 : List Card)
    (hperm : (cards.map Poker.card_value).Perm [14, 5, 4, 3, 2])
    (hperm6 : (cards6.map Poker.card_value).Perm [6, 5, 4, 3, 2]) :
    Poker._evaluate_five_cards cards =
      (if Poker.is_flush cards then (9, [5, 4, 3, 2, 1], "Straight Flush")
       else (5, [5, 4, 3, 2, 1], "Straight")) ∧
    (Poker.is_flush cards6 = Poker.is_flush cards →
      Poker.handBetter (Poker._evaluate_five_cards cards6)
        (Poker._evaluate_five_cards cards) = true) := by
  have hs : Poker.sortDesc (cards.map Poker.card_value) = [14, 5, 4, 3, 2] :=
    Poker.sortDesc_eq hperm (by decide)
  have hs6 : Poker.sortDesc (cards6.map Poker.card_value) = [6, 5, 4, 3, 2] :=
    Poker.sortDesc_eq hperm6 (by decide)
  have h1 : Poker._evaluate_five_cards cards =
      (if Poker.is_flush cards then (9, [5, 4, 3, 2, 1], "Straight Flush")
       else (5, [5, 4, 3, 2, 1], "Straight")) := by
    cases hf : Poker.is_flush cards
    · simp only [Poker._evaluate_five_cards, hs, hf]; decide
    · simp only [Poker._evaluate_five_cards, hs, hf]; decide
  have h2 : Poker._evaluate_five_cards cards6 =
      (if Poker.is_flush cards6 then (9, [6, 5, 4, 3, 2], "Straight Flush")
       else (5, [6, 5, 4, 3, 2], "Straight")) := by
    cases hf : Poker.is_flush cards6
    · simp only [Poker._evaluate_five_cards, hs6, hf]; decide
    · simp only [Poker._evaluate_five_cards, hs6, hf]; decide
  refine ⟨h1, fun hff => ?_⟩
  rw [h1, h2, hff]
  cases Poker.is_flush cards <;> decide

/-- Witness for C6: the spec's own example hands. -/
theorem c6_ace_low_straight_witness :
    Poker._evaluate_five_cards
        [⟨"hearts", "A"⟩, ⟨"diamonds", "2"⟩, ⟨"spades", "3"⟩,
          ⟨"clubs", "4"⟩, ⟨"hearts", "5"⟩] = (5, [5, 4, 3, 2, 1], "Straight") ∧
    Poker.handBetter
        (Poker._evaluate_five_cards
          [⟨"hearts", "2"⟩, ⟨"diamonds", "3"⟩, ⟨"spades", "4"⟩,
            ⟨"clubs", "5"⟩, ⟨"hearts", "6"⟩])
        (Poker._evaluate_five_cards
          [⟨"hearts", "A"⟩, ⟨"diamonds", "2"⟩, ⟨"spades", "3"⟩,
            ⟨"clubs", "4"⟩, ⟨"hearts", "5"⟩]) = true := by
  have h := c6_ace_low_straight
    [⟨"hearts", "A"⟩, ⟨"diamonds", "2"⟩, ⟨"spades", "3"⟩,
      ⟨"clubs", "4"⟩, ⟨"hearts", "5"⟩]
    [⟨"hearts", "2"⟩, ⟨"diamonds", "3"⟩, ⟨"spades", "4"⟩,
      ⟨"clubs", "5"⟩, ⟨"hearts", "6"⟩]
    (by decide) (by decide)
  exact ⟨by simpa using h.1, h.2 (by decide)⟩

/-- C7 counterexample: the claim calls `[K,Q]` a natural blackjack, but the
code's `is_blackjack` requires a two-card total of exactly 21 and values
`[K,Q]` at 20, so it answers `false`. -/
theorem c7_kq_not_blackjack :
    Blackjack.hand_value ⟨"player", [⟨"hearts", "K"⟩, ⟨"spades", "Q"⟩]⟩ = 20 ∧
    Blackjack.is_blackjack ⟨"player", [⟨"hearts", "K"⟩, ⟨"spades", "Q"⟩]⟩ = false := by
  decide

/-- C7 amended: `hand_value` reproduces the soft/hard totals on the claim's
hands — `[A,A,9]` and `[A,A,A,8]` value 21, `[K,Q]` values 20 and is *not*
a natural blackjack (a two-card 21 such as `[A,K]` is), and `[10,10,5]`
values 25 and busts. -/
theorem c7_blackjack_values :
    Blackjack.hand_value ⟨"player", [⟨"hearts", "A"⟩, ⟨"spades", "A"⟩, ⟨"clubs", "9"⟩]⟩ = 21 ∧
    Blackjack.hand_value
      ⟨"player", [⟨"hearts", "A"⟩, ⟨"spades", "A"⟩, ⟨"diamonds", "A"⟩, ⟨"clubs", "8"⟩]⟩ = 21 ∧
    Blackjack.hand_value ⟨"player", [⟨"hearts", "K"⟩, ⟨"spades", "Q"⟩]⟩ = 20 ∧
    Blackjack.is_blackjack ⟨"player", [⟨"hearts", "K"⟩, ⟨"spades", "Q"⟩]⟩ = false ∧
    Blackjack.is_blackjack ⟨"player", [⟨"hearts", "A"⟩, ⟨"spades", "K"⟩]⟩ = true ∧
    Blackjack.hand_value ⟨"player", [⟨"hearts", "10"⟩, ⟨"spades", "10"⟩, ⟨"clubs", "5"⟩]⟩ = 25 ∧
    Blackjack.is_bust ⟨"player", [⟨"hearts", "10"⟩, ⟨"spades", "10"⟩, ⟨"clubs", "5"⟩]⟩ = true ∧
    Blackjack.is_bust ⟨"player", [⟨"hearts", "A"⟩, ⟨"spades", "A"⟩, ⟨"clubs", "9"⟩]⟩ = false := by
  decide

/-- C4: every call of the War engine's `new_game` fails with
`AttributeError` — line 22 reads `deck.cards` while the `Deck` object only
carries `_cards` — so no piles are dealt; had the dealing lines received
the deck's card list, they would split the 52 distinct shuffled cards into
two 26-card piles. -/
theorem c4_new_game_attribute_error :
    (∀ sh : List Card → List Card, WarGame.new_game sh = none) ∧
    (∀ sh : List Card → List Card, (∀ l, (sh l).Perm l) →
      (WarGame.new_game_dealt (sh fullDeck)).player_pile.length = 26 ∧
      (WarGame.new_game_dealt (sh fullDeck)).ai_pile.length = 26 ∧
      ((WarGame.new_game_dealt (sh fullDeck)).player_pile ++
        (WarGame.new_game_dealt (sh fullDeck)).ai_pile).Perm fullDeck) ∧
    fullDeck.Nodup ∧ fullDeck.length = 52 := by
  refine ⟨fun sh => rfl, fun sh hsh => ?_, by decide, by decide⟩
  have hlen : (sh fullDeck).length = 52 := by
    rw [(hsh fullDeck).length_eq]
    decide
  have htd : (WarGame.new_game_dealt (sh fullDeck)).player_pile ++
      (WarGame.new_game_dealt (sh fullDeck)).ai_pile = sh fullDeck := by
    simp [WarGame.new_game_dealt]
  refine ⟨?_, ?_, ?_⟩
  · simp [WarGame.new_game_dealt, hlen]
  · simp [WarGame.new_game_dealt, hlen]
  · rw [htd]
    exact hsh fullDeck

/-- Witness for C4 at the identity shuffle. -/
theorem c4_new_game_attribute_error_witness :
    WarGame.new_game id = none ∧
    (WarGame.new_game_dealt (id fullDeck)).player_pile.length = 26 :=
  ⟨c4_new_game_attribute_error.1 id,
    (c4_new_game_attribute_error.2.1 id (fun l => List.Perm.refl l)).1⟩

namespace WarGame

/-- The war-escalation loop moves `min n |pile|` cards from each pile into
the war pot and touches nothing else. -/
theorem warDraw_lengths : ∀ (n : Nat) (s : WarState),
    (warDraw n s).player_pile.length = s.player_pile.length - n ∧
    (warDraw n s).ai_pile.length = s.ai_pile.length - n ∧
    (warDraw n s).war_pot.length =
      s.war_pot.length + min n s.player_pile.length + min n s.ai_pile.length ∧
    (warDraw n s).in_war = s.in_war ∧
    (warDraw n s).finished = s.finished ∧
    (warDraw n s).winner = s.winner ∧
    (warDraw n s).last_result = s.last_result ∧
    (warDraw n s).player_battle_cards = s.player_battle_cards ∧
    (warDraw n s).ai_battle_cards = s.ai_battle_cards := by
  intro n
  induction n with
  | zero => intro s; simp [warDraw]
  | succ n ih =>
    intro s
    rcases hp : s.player_pile with _ | ⟨pc, prest⟩ <;>
      rcases ha : s.ai_pile with _ | ⟨ac, arest⟩ <;>
      · simp [warDraw, hp, ha, ih]
        try omega

end WarGame

namespace WarGame

/-- One `play_round` conserves the number of cards held by the three
exclusively-owning containers (piles and war pot), for any shuffle that
keeps the battle pile's size. -/
theorem play_round_pileSum (sh : List Card → List Card)
    (hsh : ∀ l, (sh l).length = l.length) (s : WarState) :
    pileSum (play_round sh s).1 = pileSum s := by
  rcases hf : s.finished
  · rcases hp : s.player_pile with _ | ⟨pc, prest⟩
    · simp [play_round, hf, hp, finish_game, pileSum]
    · rcases ha : s.ai_pile with _ | ⟨ac, arest⟩
      · simp [play_round, hf, hp, ha, finish_game, pileSum]
      · simp only [play_round, hf, hp, ha]
        split_ifs <;>
          simp [pileSum, finish_game, warDraw_lengths, hsh, hp, ha] <;>
          omega
  · simp [play_round, hf, pileSum]

end WarGame

/-- C9 counterexample: from the state `new_game` is written to produce
(identity shuffle), already the first `play_round` leaves 54 cards counted
across piles, war pot and battle cards — the two battle cards stay on
display after being collected into the war pot, so the claimed total of 52
fails at this observation point. -/
theorem c9_battle_cards_double_counted :
    WarGame.allCardsCount (WarGame.new_game_dealt fullDeck) = 52 ∧
    WarGame.allCardsCount
      ((WarGame.play_round id (WarGame.new_game_dealt fullDeck)).1) = 54 := by
  constructor
  · decide
  · decide

/-- C9 amended: across any run of `play_round` calls from a dealt game, the
cards held by the exclusively-owning containers — the two piles plus the
war pot — always total 52; the battle-card lists hold display copies of
cards already counted there. -/
theorem c9_pile_conservation (sh : List Card → List Card)
    (hsh : ∀ l : List Card, (sh l).Perm l) (cards : List Card)
    (hcards : cards.length = 52) (n : Nat) :
    WarGame.pileSum (WarGame.playRounds sh n (WarGame.new_game_dealt cards)) = 52 := by
  have hlen : ∀ l : List Card, (sh l).length = l.length :=
    fun l => (hsh l).length_eq
  have hinit : WarGame.pileSum (WarGame.new_game_dealt cards) = 52 := by
    simp [WarGame.new_game_dealt, WarGame.pileSum]
    omega
  have main : ∀ (m : Nat) (s : WarGame.WarState),
      WarGame.pileSum s = 52 → WarGame.pileSum (WarGame.playRounds sh m s) = 52 := by
    intro m
    induction m with
    | zero => intro s hs; simpa [WarGame.playRounds] using hs
    | succ m ih =>
      intro s hs
      simp only [WarGame.playRounds]
      exact ih _ ((WarGame.play_round_pileSum sh hlen s).trans hs)
  exact main n _ hinit

/-- Witness for C9 (amended) after two rounds of the identity shuffle. -/
theorem c9_pile_conservation_witness :
    WarGame.pileSum (WarGame.playRounds id 2 (WarGame.new_game_dealt fullDeck)) = 52 :=
  c9_pile_conservation id (fun l => List.Perm.refl l) fullDeck (by decide) 2

/-- C5 counterexample: calling `play_round` on a state whose player pile
emptied into an active war ends the game at the top-of-round check with the
AI declared winner even though the war is still active, contradicting the
claim that the game finishes only when a pile is empty *and* no war is
active. -/
theorem c5_finish_during_active_war :
    (WarGame.play_round id
        { player_pile := [], ai_pile := [⟨"hearts", "2"⟩],
          war_pot := [⟨"hearts", "A"⟩, ⟨"clubs", "A"⟩],
          in_war := true, finished := false }).1.finished = true ∧
    (WarGame.play_round id
        { player_pile := [], ai_pile := [⟨"hearts", "2"⟩],
          war_pot := [⟨"hearts", "A"⟩, ⟨"clubs", "A"⟩],
          in_war := true, finished := false }).1.winner = some "ai" ∧
    (WarGame.play_round id
        { player_pile := [], ai_pile := [⟨"hearts", "2"⟩],
          war_pot := [⟨"hearts", "A"⟩, ⟨"clubs", "A"⟩],
          in_war := true, finished := false }).1.in_war = true := by
  decide

/-- C5 amended: in a war each side contributes `min 3 |pile|` cards — all it
has when short — and a war-flagged round never finishes the game at its end
check, which awards the game only with an empty pile and no active war; but
a `play_round` call that begins with an empty player pile finishes the game
at once, active war or not. -/
theorem c5_war_short_side_participation (sh : List Card → List Card)
    (_hsh : ∀ l : List Card, (sh l).Perm l) (s : WarGame.WarState)
    (hfin : s.finished = false) :
    (∀ pc prest ac arest, s.player_pile = pc :: prest → s.ai_pile = ac :: arest →
      WarGame.compare_cards pc ac = "war" →
      (WarGame.play_round sh s).1.war_pot.length =
        s.war_pot.length + 2 + min 3 prest.length + min 3 arest.length ∧
      (WarGame.play_round sh s).1.player_pile.length = prest.length - 3 ∧
      (WarGame.play_round sh s).1.ai_pile.length = arest.length - 3 ∧
      (WarGame.play_round sh s).1.in_war = true ∧
      (WarGame.play_round sh s).1.finished = false) ∧
    (∀ pc prest ac arest, s.player_pile = pc :: prest → s.ai_pile = ac :: arest →
      (WarGame.play_round sh s).1.finished = true →
      (WarGame.play_round sh s).1.in_war = false ∧
      ((WarGame.play_round sh s).1.player_pile = [] ∨
        (WarGame.play_round sh s).1.ai_pile = [])) ∧
    (s.player_pile = [] →
      (WarGame.play_round sh s).1.finished = true ∧
      (WarGame.play_round sh s).1.winner = some "ai" ∧
      (WarGame.play_round sh s).1.in_war = s.in_war) := by
  refine ⟨?_, ?_, ?_⟩
  · intro pc prest ac arest hp ha hw
    simp only [WarGame.play_round, hfin, hp, ha, hw]
    simp [WarGame.warDraw_lengths]
  · intro pc prest ac arest hp ha
    simp only [WarGame.play_round, hfin, hp, ha]
    rcases hc : WarGame.compare_cards pc ac with _
    split_ifs <;> simp_all [WarGame.finish_game, WarGame.warDraw_lengths]
  · intro hp
    simp [WarGame.play_round, hfin, hp, WarGame.finish_game]

/-- Witness for C5 (amended): a two-card war where each side can post only
one extra card. -/
theorem c5_war_short_side_participation_witness :
    (WarGame.play_round id
        { player_pile := [⟨"hearts", "A"⟩, ⟨"hearts", "2"⟩],
          ai_pile := [⟨"spades", "A"⟩, ⟨"spades", "2"⟩] }).1.war_pot.length =
      ([] : List Card).length + 2 + min 3 1 + min 3 1 ∧
    (WarGame.play_round id
        { player_pile := [⟨"hearts", "A"⟩, ⟨"hearts", "2"⟩],
          ai_pile := [⟨"spades", "A"⟩, ⟨"spades", "2"⟩] }).1.player_pile.length = 1 - 3 ∧
    (WarGame.play_round id
        { player_pile := [⟨"hearts", "A"⟩, ⟨"hearts", "2"⟩],
          ai_pile := [⟨"spades", "A"⟩, ⟨"spades", "2"⟩] }).1.ai_pile.length = 1 - 3 ∧
    (WarGame.play_round id
        { player_pile := [⟨"hearts", "A"⟩, ⟨"hearts", "2"⟩],
          ai_pile := [⟨"spades", "A"⟩, ⟨"spades", "2"⟩] }).1.in_war = true ∧
    (WarGame.play_round id
        { player_pile := [⟨"hearts", "A"⟩, ⟨"hearts", "2"⟩],
          ai_pile := [⟨"spades", "A"⟩, ⟨"spades", "2"⟩] }).1.finished = false :=
  (c5_war_short_side_participation id (fun l => List.Perm.refl l)
      { player_pile := [⟨"hearts", "A"⟩, ⟨"hearts", "2"⟩],
        ai_pile := [⟨"spades", "A"⟩, ⟨"spades", "2"⟩] } rfl).1
    ⟨"hearts", "A"⟩ [⟨"hearts", "2"⟩] ⟨"spades", "A"⟩ [⟨"spades", "2"⟩]
    rfl rfl (by decide)

namespace Poker

theorem finish_hand_finished (w : String) (s : PokerState) :
    (finish_hand w s).finished = true := by
  simp only [finish_hand]
  split_ifs <;> rfl

/-- Awarding the pot to both sides' stacks keeps them non-negative when the
pot itself is non-negative. -/
theorem finish_hand_nonneg (w : String) (s : PokerState)
    (hp : 0 ≤ s.player_chips) (ha : 0 ≤ s.ai_chips) (hpot : 0 ≤ s.pot) :
    0 ≤ (finish_hand w s).player_chips ∧ 0 ≤ (finish_hand w s).ai_chips := by
  have hdiv : 0 ≤ s.pot.fdiv 2 := Int.fdiv_nonneg hpot (by omega)
  simp only [finish_hand]
  split_ifs <;> constructor <;> simp <;> omega

theorem showdown_finished (s : PokerState) : (showdown s).finished = true :=
  finish_hand_finished _ _

theorem showdown_nonneg (s : PokerState)
    (hp : 0 ≤ s.player_chips) (ha : 0 ≤ s.ai_chips) (hpot : 0 ≤ s.pot) :
    0 ≤ (showdown s).player_chips ∧ 0 ≤ (showdown s).ai_chips :=
  finish_hand_nonneg _ _ hp ha hpot

end Poker

namespace Poker

/-- A successful phase advance that does not end the hand leaves all three
chip accounts untouched. -/
theorem next_phase_chips (c c' : PokerController) (h : next_phase c = some c')
    (hfin : c'.state.finished = false) :
    c'.state.player_chips = c.state.player_chips ∧
    c'.state.ai_chips = c.state.ai_chips ∧
    c'.state.pot = c.state.pot := by
  simp only [next_phase] at h
  set t := (if c.state.dealer_is_player = true then "ai" else "player") with ht
  split_ifs at h
  · rcases hd1 : deckDraw c.deck with _ | ⟨b1, d1⟩ <;> simp only [hd1] at h
    · exact Option.noConfusion h
    · rcases hd3 : deckDrawN 3 d1 with _ | ⟨cs, d2⟩ <;> simp only [hd3] at h
      · exact Option.noConfusion h
      · obtain rfl := Option.some.inj h
        simp
  · rcases hd1 : deckDraw c.deck with _ | ⟨b1, d1⟩ <;> simp only [hd1] at h
    · exact Option.noConfusion h
    · rcases hd2 : deckDraw d1 with _ | ⟨c1, d2⟩ <;> simp only [hd2] at h
      · exact Option.noConfusion h
      · obtain rfl := Option.some.inj h
        simp
  · rcases hd1 : deckDraw c.deck with _ | ⟨b1, d1⟩ <;> simp only [hd1] at h
    · exact Option.noConfusion h
    · rcases hd2 : deckDraw d1 with _ | ⟨c1, d2⟩ <;> simp only [hd2] at h
      · exact Option.noConfusion h
      · obtain rfl := Option.some.inj h
        simp
  · obtain rfl := Option.some.inj h
    simp [showdown_finished] at hfin
  · obtain rfl := Option.some.inj h
    simp

/-- A successful phase advance keeps both stacks non-negative whenever the
stacks and the pot were. -/
theorem next_phase_nonneg (c c' : PokerController) (h : next_phase c = some c')
    (hp : 0 ≤ c.state.player_chips) (ha : 0 ≤ c.state.ai_chips)
    (hpot : 0 ≤ c.state.pot) :
    0 ≤ c'.state.player_chips ∧ 0 ≤ c'.state.ai_chips := by
  simp only [next_phase] at h
  set t := (if c.state.dealer_is_player = true then "ai" else "player") with ht
  split_ifs at h
  · rcases hd1 : deckDraw c.deck with _ | ⟨b1, d1⟩ <;> simp only [hd1] at h
    · exact Option.noConfusion h
    · rcases hd3 : deckDrawN 3 d1 with _ | ⟨cs, d2⟩ <;> simp only [hd3] at h
      · exact Option.noConfusion h
      · obtain rfl := Option.some.inj h
        simp [hp, ha]
  · rcases hd1 : deckDraw c.deck with _ | ⟨b1, d1⟩ <;> simp only [hd1] at h
    · exact Option.noConfusion h
    · rcases hd2 : deckDraw d1 with _ | ⟨c1, d2⟩ <;> simp only [hd2] at h
      · exact Option.noConfusion h
      · obtain rfl := Option.some.inj h
        simp [hp, ha]
  · rcases hd1 : deckDraw c.deck with _ | ⟨b1, d1⟩ <;> simp only [hd1] at h
    · exact Option.noConfusion h
    · rcases hd2 : deckDraw d1 with _ | ⟨c1, d2⟩ <;> simp only [hd2] at h
      · exact Option.noConfusion h
      · obtain rfl := Option.some.inj h
        simp [hp, ha]
  · obtain rfl := Option.some.inj h
    exact showdown_nonneg _ hp ha hpot
  · obtain rfl := Option.some.inj h
    exact ⟨hp, ha⟩

/-- Advancing the turn without finishing the hand leaves the chip sum
unchanged. -/
theorem next_turn_chipSum (c c' : PokerController) (h : next_turn c = some c')
    (hfin : c'.state.finished = false) :
    chipSum c'.state = chipSum c.state := by
  simp only [next_turn] at h
  split_ifs at h
  · obtain rfl := Option.some.inj h
    rfl
  · obtain ⟨h1, h2, h3⟩ := next_phase_chips c c' h hfin
    simp [chipSum, h1, h2, h3]
  · obtain rfl := Option.some.inj h
    rfl
  · obtain rfl := Option.some.inj h
    rfl

/-- Advancing the turn keeps both stacks non-negative whenever the stacks
and the pot were. -/
theorem next_turn_nonneg (c c' : PokerController) (h : next_turn c = some c')
    (hp : 0 ≤ c.state.player_chips) (ha : 0 ≤ c.state.ai_chips)
    (hpot : 0 ≤ c.state.pot) :
    0 ≤ c'.state.player_chips ∧ 0 ≤ c'.state.ai_chips := by
  simp only [next_turn] at h
  split_ifs at h
  · obtain rfl := Option.some.inj h
    exact ⟨hp, ha⟩
  · exact next_phase_nonneg c c' h hp ha hpot
  · obtain rfl := Option.some.inj h
    exact ⟨hp, ha⟩
  · obtain rfl := Option.some.inj h
    exact ⟨hp, ha⟩

end Poker

/-- C2: every poker action that does not finish the hand (finishing is the
only pot-award point, and blind posting happens only in `new_game`) leaves
`player_chips + ai_chips + pot` unchanged, for both the player's actions
and the AI's. -/
theorem c2_chip_conservation :
    (∀ (c : Poker.PokerController) (action : String) (amount : Int)
        (c' : Poker.PokerController) (msg : String),
      Poker.player_action action amount c = some (c', msg) →
      c'.state.finished = false →
      Poker.chipSum c'.state = Poker.chipSum c.state) ∧
    (∀ (c : Poker.PokerController) (d : Poker.AIDecision)
        (c' : Poker.PokerController) (an msg : String),
      Poker.ai_action d c = some (c', an, msg) →
      c'.state.finished = false →
      Poker.chipSum c'.state = Poker.chipSum c.state) := by
  constructor
  · intro c action amount c' msg h hfin
    simp only [Poker.player_action] at h
    split_ifs at h <;>
      first
        | (simp only [Option.some.injEq, Prod.mk.injEq] at h
           obtain ⟨rfl, -⟩ := h
           rfl)
        | (exfalso
           simp only [Option.some.injEq, Prod.mk.injEq] at h
           obtain ⟨rfl, -⟩ := h
           simp [Poker.finish_hand_finished] at hfin)
        | (simp only [Option.map_eq_some'] at h
           obtain ⟨a, ha, hb⟩ := h
           simp only [Prod.mk.injEq] at hb
           obtain ⟨rfl, -⟩ := hb
           rw [Poker.next_turn_chipSum _ _ ha hfin]
           simp only [Poker.chipSum]
           try simp
           try omega)
  · intro c d c' an msg h hfin
    simp only [Poker.ai_action] at h
    split_ifs at h <;>
      first
        | (simp only [Option.some.injEq, Prod.mk.injEq] at h
           obtain ⟨rfl, -⟩ := h
           rfl)
        | (exfalso
           simp only [Option.some.injEq, Prod.mk.injEq] at h
           obtain ⟨rfl, -⟩ := h
           simp [Poker.finish_hand_finished] at hfin)
        | (simp only [Option.map_eq_some'] at h
           obtain ⟨a, ha, hb⟩ := h
           simp only [Prod.mk.injEq] at hb
           obtain ⟨rfl, -⟩ := hb
           rw [Poker.next_turn_chipSum _ _ ha hfin]
           simp only [Poker.chipSum]
           try simp
           try omega)

/-- Witness for C2: a concrete mid-hand call that conserves the chip sum. -/
theorem c2_chip_conservation_witness :
    Poker.chipSum
        ({ player_chips := 980, ai_chips := 980, pot := 40, current_bet := 20,
           player_bet := 20, ai_bet := 20, turn := "ai",
           player_acted := true, ai_acted := false } : Poker.PokerState) =
      Poker.chipSum
        ({ player_chips := 990, ai_chips := 980, pot := 30, current_bet := 20,
           player_bet := 10, ai_bet := 20, turn := "player",
           player_acted := false, ai_acted := false } : Poker.PokerState) :=
  c2_chip_conservation.1
    ⟨{ player_chips := 990, ai_chips := 980, pot := 30, current_bet := 20,
       player_bet := 10, ai_bet := 20, turn := "player",
       player_acted := false, ai_acted := false }, []⟩
    "call" 0
    ⟨{ player_chips := 980, ai_chips := 980, pot := 40, current_bet := 20,
       player_bet := 20, ai_bet := 20, turn := "ai",
       player_acted := true, ai_acted := false }, []⟩
    "You called $10"
    (by decide) (by decide)

namespace Poker

theorem deckDraw_of_length (d : List Card) (h : 1 ≤ d.length) :
    ∃ (c1 : Card) (d1 : List Card),
      deckDraw d = some (c1, d1) ∧ d1.length + 1 = d.length := by
  rcases hg : d.getLast? with _ | cl
  · rw [List.getLast?_eq_none_iff] at hg
    subst hg
    simp at h
  · exact ⟨cl, d.dropLast, by simp [deckDraw, hg],
      by rw [List.length_dropLast]; omega⟩

theorem deckDrawN_of_length : ∀ (n : Nat) (d : List Card), n ≤ d.length →
    ∃ cs d', deckDrawN n d = some (cs, d') ∧ cs.length = n ∧
      d'.length + n = d.length := by
  intro n
  induction n with
  | zero => intro d _; exact ⟨[], d, rfl, rfl, by omega⟩
  | succ n ih =>
    intro d hd
    obtain ⟨c1, d1, hd1, hlen1⟩ := deckDraw_of_length d (by omega)
    obtain ⟨cs, d', hdn, hcs, hlen⟩ := ih d1 (by omega)
    exact ⟨c1 :: cs, d', by simp [deckDrawN, hd1, hdn], by simp [hcs],
      by omega⟩

end Poker

/-- C3: on an unfinished hand, `_next_turn` advances the phase exactly when
both sides have acted and their committed bets agree — otherwise it only
flips the turn — and each advance burns one card then deals 3 community
cards at the flop and 1 at the turn and river (deck shrinking by the burn
plus the deal), while completing the river's round runs the showdown and
finishes the hand. -/
theorem c3_round_completion (c : Poker.PokerController)
    (hfin : c.state.finished = false) :
    (¬ (c.state.player_acted = true ∧ c.state.ai_acted = true ∧
        c.state.player_bet = c.state.ai_bet) →
      Poker.next_turn c = some ⟨{ c.state with
        turn := if c.state.turn = "player" then "ai" else "player" }, c.deck⟩) ∧
    ((c.state.player_acted = true ∧ c.state.ai_acted = true ∧
        c.state.player_bet = c.state.ai_bet) →
      (c.state.phase = "preflop" → 4 ≤ c.deck.length →
        ∃ c', Poker.next_turn c = some c' ∧ c'.state.phase = "flop" ∧
          c'.state.community_cards.length = c.state.community_cards.length + 3 ∧
          c'.deck.length + 4 = c.deck.length ∧ c'.state.finished = false) ∧
      (c.state.phase = "flop" → 2 ≤ c.deck.length →
        ∃ c', Poker.next_turn c = some c' ∧ c'.state.phase = "turn" ∧
          c'.state.community_cards.length = c.state.community_cards.length + 1 ∧
          c'.deck.length + 2 = c.deck.length ∧ c'.state.finished = false) ∧
      (c.state.phase = "turn" → 2 ≤ c.deck.length →
        ∃ c', Poker.next_turn c = some c' ∧ c'.state.phase = "river" ∧
          c'.state.community_cards.length = c.state.community_cards.length + 1 ∧
          c'.deck.length + 2 = c.deck.length ∧ c'.state.finished = false) ∧
      (c.state.phase = "river" →
        ∃ c', Poker.next_turn c = some c' ∧ c'.state.phase = "showdown" ∧
          c'.state.community_cards.length = c.state.community_cards.length ∧
          c'.deck.length = c.deck.length ∧ c'.state.finished = true)) := by
  constructor
  · intro hcond
    have hb : (c.state.player_acted && c.state.ai_acted &&
        c.state.player_bet == c.state.ai_bet) = false := by
      rcases hpa : c.state.player_acted <;> rcases haa : c.state.ai_acted <;>
        simp_all
    simp [Poker.next_turn, hfin, hb]
  · intro hcond
    have hb : (c.state.player_acted && c.state.ai_acted &&
        c.state.player_bet == c.state.ai_bet) = true := by
      simp [hcond.1, hcond.2.1, hcond.2.2]
    have hnt : Poker.next_turn c = Poker.next_phase c := by
      simp [Poker.next_turn, hfin, hb]
    refine ⟨?_, ?_, ?_, ?_⟩
    · intro hph hdeck
      obtain ⟨b1, d1, hd1, hlen1⟩ := Poker.deckDraw_of_length c.deck (by omega)
      obtain ⟨cs, d2, hd3, hcs, hlen3⟩ := Poker.deckDrawN_of_length 3 d1 (by omega)
      rw [hnt]
      simp only [Poker.next_phase, hph, hd1, hd3]
      refine ⟨_, rfl, by simp, by simp [hcs], by simp; omega, by simp [hfin]⟩
    · intro hph hdeck
      obtain ⟨b1, d1, hd1, hlen1⟩ := Poker.deckDraw_of_length c.deck (by omega)
      obtain ⟨c1, d2, hd2, hlen2⟩ := Poker.deckDraw_of_length d1 (by omega)
      rw [hnt]
      simp only [Poker.next_phase, hph, hd1, hd2]
      refine ⟨_, rfl, by simp, by simp, by simp; omega, by simp [hfin]⟩
    · intro hph hdeck
      obtain ⟨b1, d1, hd1, hlen1⟩ := Poker.deckDraw_of_length c.deck (by omega)
      obtain ⟨c1, d2, hd2, hlen2⟩ := Poker.deckDraw_of_length d1 (by omega)
      rw [hnt]
      simp only [Poker.next_phase, hph, hd1, hd2]
      refine ⟨_, rfl, by simp, by simp, by simp; omega, by simp [hfin]⟩
    · intro hph
      rw [hnt]
      simp only [Poker.next_phase, hph]
      refine ⟨_, rfl, ?_, ?_, ?_, ?_⟩
      · simp only [Poker.showdown, Poker.finish_hand]
        split_ifs <;> simp
      · simp only [Poker.showdown, Poker.finish_hand]
        split_ifs <;> simp
      · simp
      · exact Poker.showdown_finished _

/-- Witness for C3: an incomplete round only flips the turn, and a
completed preflop round deals the flop from a 4-card deck. -/
theorem c3_round_completion_witness :
    Poker.next_turn
        ⟨{}, [⟨"hearts", "2"⟩, ⟨"hearts", "3"⟩, ⟨"hearts", "4"⟩, ⟨"hearts", "5"⟩]⟩ =
      some ⟨{ turn := "ai" },
        [⟨"hearts", "2"⟩, ⟨"hearts", "3"⟩, ⟨"hearts", "4"⟩, ⟨"hearts", "5"⟩]⟩ ∧
    (∃ c', Poker.next_turn
        ⟨{ player_acted := true, ai_acted := true },
          [⟨"hearts", "2"⟩, ⟨"hearts", "3"⟩, ⟨"hearts", "4"⟩, ⟨"hearts", "5"⟩]⟩ =
          some c' ∧
      c'.state.phase = "flop" ∧
      c'.state.community_cards.length =
        (Poker.PokerState.community_cards { player_acted := true, ai_acted := true }).length + 3 ∧
      c'.deck.length + 4 =
        ([⟨"hearts", "2"⟩, ⟨"hearts", "3"⟩, ⟨"hearts", "4"⟩, ⟨"hearts", "5"⟩] : List Card).length ∧
      c'.state.finished = false) := by
  constructor
  · have h := (c3_round_completion
      ⟨{}, [⟨"hearts", "2"⟩, ⟨"hearts", "3"⟩, ⟨"hearts", "4"⟩, ⟨"hearts", "5"⟩]⟩
      (by decide)).1 (by decide)
    simpa using h
  · exact ((c3_round_completion
      ⟨{ player_acted := true, ai_acted := true },
        [⟨"hearts", "2"⟩, ⟨"hearts", "3"⟩, ⟨"hearts", "4"⟩, ⟨"hearts", "5"⟩]⟩
      (by decide)).2 (by decide)).1 (by decide) (by decide)

/-- C8 counterexample: the AI's raise is applied exactly as requested, with
no big-blind minimum — a requested raise of 5 on a 20 big blind moves the
current bet only 5 above the call level. -/
theorem c8_ai_raise_below_minimum :
    (Poker.ai_action { action := "raise", raise_amount := 5 }
        ⟨{ current_bet := 20, ai_bet := 20, turn := "ai" }, []⟩).map
      (fun t => t.1.state.current_bet) = some 25 ∧
    Poker.PokerState.big_blind { current_bet := 20, ai_bet := 20, turn := "ai" } = 20 := by
  constructor
  · decide
  · decide

namespace Poker

/-- When the hand is live and the AI still has to act, `_next_turn` merely
hands the turn across. -/
theorem next_turn_flip_of_ai_acted_false (ctrl : PokerController)
    (h1 : ctrl.state.finished = false) (h2 : ctrl.state.ai_acted = false) :
    next_turn ctrl = some ⟨{ ctrl.state with
      turn := if ctrl.state.turn = "player" then "ai" else "player" },
      ctrl.deck⟩ := by
  simp [next_turn, h1, h2]

/-- When the hand is live and the player still has to act, `_next_turn`
merely hands the turn across. -/
theorem next_turn_flip_of_player_acted_false (ctrl : PokerController)
    (h1 : ctrl.state.finished = false) (h2 : ctrl.state.player_acted = false) :
    next_turn ctrl = some ⟨{ ctrl.state with
      turn := if ctrl.state.turn = "player" then "ai" else "player" },
      ctrl.deck⟩ := by
  simp [next_turn, h1, h2]

end Poker

/-- C8 amended: the raise amount is the extra amount over the call; the
*player's* raise is brought up to the big-blind minimum when requested
smaller, while the *AI's* raise amount is used exactly as requested with no
minimum; either raise resets the other side's acted flag and leaves the
raiser's committed bet equal to the new current bet (chip stacks
permitting). -/
theorem c8_raise_semantics :
    (∀ (c : Poker.PokerController) (amount : Int)
        (c' : Poker.PokerController) (msg : String),
      c.state.finished = false → c.state.turn = "player" →
      c.state.current_bet - c.state.player_bet +
          (if amount < c.state.big_blind then c.state.big_blind else amount) ≤
        c.state.player_chips →
      Poker.player_action "raise" amount c = some (c', msg) →
      c'.state.current_bet = c.state.current_bet +
        (if amount < c.state.big_blind then c.state.big_blind else amount) ∧
      c'.state.ai_acted = false ∧
      c'.state.player_bet = c'.state.current_bet) ∧
    (∀ (c : Poker.PokerController) (d : Poker.AIDecision)
        (c' : Poker.PokerController) (an msg : String),
      c.state.finished = false → c.state.turn = "ai" →
      d.action = "raise" →
      0 < c.state.current_bet - c.state.ai_bet + d.raise_amount →
      c.state.current_bet - c.state.ai_bet + d.raise_amount ≤ c.state.ai_chips →
      Poker.ai_action d c = some (c', an, msg) →
      c'.state.current_bet = c.state.current_bet + d.raise_amount ∧
      c'.state.player_acted = false ∧
      c'.state.ai_bet = c'.state.current_bet) := by
  constructor
  · intro c amount c' msg hfin hturn hchips h
    simp only [Poker.player_action, hfin, hturn] at h
    simp only [String.reduceEq, reduceIte, decide_True, decide_False,
      Bool.not_true, Bool.not_false, Bool.false_or, Bool.or_false,
      ne_eq, not_true, not_false_iff] at h
    norm_num at h
    rw [min_eq_left hchips] at h
    obtain ⟨a, ha, hb⟩ := h
    obtain ⟨rfl, -⟩ := hb
    obtain rfl := Option.some.inj ha
    refine ⟨by simp; ring, by simp, by simp⟩
  · intro c d c' an msg hfin hturn hact h0 hchips h
    simp only [Poker.ai_action, hfin, hturn, hact] at h
    simp only [String.reduceEq, reduceIte, decide_True, decide_False,
      Bool.not_true, Bool.not_false, Bool.false_or, Bool.or_false,
      Bool.false_and, Bool.and_false, ne_eq, not_true, not_false_iff] at h
    norm_num at h
    rw [min_eq_left hchips] at h
    rw [if_neg (by omega :
      ¬ (c.state.current_bet - c.state.ai_bet + d.raise_amount ≤ 0 ∨
        c.state.ai_chips ≤ 0))] at h
    rw [Poker.next_turn_flip_of_player_acted_false _ (by simp) (by simp)] at h
    rw [Option.map_eq_some'] at h
    obtain ⟨a, ha, hb⟩ := h
    simp only [Prod.mk.injEq] at hb
    obtain ⟨rfl, -⟩ := hb
    obtain rfl := Option.some.inj ha
    refine ⟨by simp; ring, by simp, by simp⟩

/-- Witness for C8: a below-minimum player raise (clamped to the blind) and
an AI raise of 5, each resetting the opponent's acted flag. -/
theorem c8_raise_semantics_witness :
    ({ state := { player_chips := 960, pot := 30, current_bet := 40,
                  player_bet := 40, turn := "ai", player_acted := true,
                  ai_acted := false },
       deck := [] } : Poker.PokerController).state.ai_acted = false ∧
    ({ state := { ai_chips := 995, pot := 5, current_bet := 25, ai_bet := 25,
                  turn := "player", ai_acted := true, player_acted := false },
       deck := [] } : Poker.PokerController).state.player_acted = false :=
  ⟨(c8_raise_semantics.1
      ⟨{ player_chips := 990, current_bet := 20, player_bet := 10,
         turn := "player" }, []⟩
      5
      ⟨{ player_chips := 960, pot := 30, current_bet := 40, player_bet := 40,
         turn := "ai", player_acted := true, ai_acted := false }, []⟩
      "You raised to $40"
      (by decide) (by decide) (by decide) (by decide)).2.1,
    (c8_raise_semantics.2
      ⟨{ ai_chips := 1000, current_bet := 20, ai_bet := 20, turn := "ai" }, []⟩
      { action := "raise", raise_amount := 5 }
      ⟨{ ai_chips := 995, pot := 5, current_bet := 25, ai_bet := 25,
         turn := "player", ai_acted := true, player_acted := false }, []⟩
      "raise" "AI raises to $25"
      (by decide) (by decide) (by decide) (by decide) (by decide) (by decide)).2.1⟩

/-- C10 counterexample: with both stacks non-negative but a negative pot, a
single fold drives the AI's stack negative, so non-negative stacks alone
are not preserved by one action. -/
theorem c10_negative_pot_breaks_nonneg :
    (0 : Int) ≤ Poker.PokerState.player_chips
        { player_chips := 0, ai_chips := 0, pot := -1, turn := "player" } ∧
    (0 : Int) ≤ Poker.PokerState.ai_chips
        { player_chips := 0, ai_chips := 0, pot := -1, turn := "player" } ∧
    (Poker.player_action "fold" 0
        ⟨{ player_chips := 0, ai_chips := 0, pot := -1, turn := "player" }, []⟩).map
      (fun p => p.1.state.ai_chips) = some (-1) := by
  refine ⟨by decide, by decide, by decide⟩

/-- C10 amended: in any PokerState whose stacks and pot are non-negative,
whose committed bets do not exceed the current bet, and whose big blind is
non-negative, every single player action and every single AI action leaves
both stacks non-negative: each in-hand payment is capped at the actor's
available chips, and every pot award pays out a non-negative pot. -/
theorem c10_chips_stay_nonneg :
    (∀ (c : Poker.PokerController) (action : String) (amount : Int)
        (c' : Poker.PokerController) (msg : String),
      0 ≤ c.state.player_chips → 0 ≤ c.state.ai_chips → 0 ≤ c.state.pot →
      c.state.player_bet ≤ c.state.current_bet → 0 ≤ c.state.big_blind →
      Poker.player_action action amount c = some (c', msg) →
      0 ≤ c'.state.player_chips ∧ 0 ≤ c'.state.ai_chips) ∧
    (∀ (c : Poker.PokerController) (d : Poker.AIDecision)
        (c' : Poker.PokerController) (an msg : String),
      0 ≤ c.state.player_chips → 0 ≤ c.state.ai_chips → 0 ≤ c.state.pot →
      c.state.ai_bet ≤ c.state.current_bet →
      Poker.ai_action d c = some (c', an, msg) →
      0 ≤ c'.state.player_chips ∧ 0 ≤ c'.state.ai_chips) ∧
    (Poker.post_blinds { player_chips := 0 }).player_chips = -10 := by
  refine ⟨?_, ?_, by decide⟩
  · intro c action amount c' msg hp ha hpot hbet hbb h
    simp only [Poker.player_action] at h
    split_ifs at h <;>
      first
        | (simp only [Option.some.injEq, Prod.mk.injEq] at h
           obtain ⟨rfl, -⟩ := h
           exact ⟨hp, ha⟩)
        | (simp only [Option.some.injEq, Prod.mk.injEq] at h
           obtain ⟨rfl, -⟩ := h
           refine Poker.finish_hand_nonneg _ _ ?_ ?_ ?_ <;> simp <;> omega)
        | (simp only [Option.map_eq_some'] at h
           obtain ⟨a, ha', hb⟩ := h
           simp only [Prod.mk.injEq] at hb
           obtain ⟨rfl, -⟩ := hb
           refine Poker.next_turn_nonneg _ _ ha' ?_ ?_ ?_ <;> simp <;> omega)
  · intro c d c' an msg hp ha hpot hbet h
    simp only [Poker.ai_action] at h
    split_ifs at h <;>
      first
        | (simp only [Option.some.injEq, Prod.mk.injEq] at h
           obtain ⟨rfl, -⟩ := h
           exact ⟨hp, ha⟩)
        | (simp only [Option.some.injEq, Prod.mk.injEq] at h
           obtain ⟨rfl, -⟩ := h
           refine Poker.finish_hand_nonneg _ _ ?_ ?_ ?_ <;> simp <;> omega)
        | (simp only [Option.map_eq_some'] at h
           obtain ⟨a, ha', hb⟩ := h
           simp only [Prod.mk.injEq] at hb
           obtain ⟨rfl, -⟩ := hb
           refine Poker.next_turn_nonneg _ _ ha' ?_ ?_ ?_ <;> simp <;> omega)

/-- Witness for C10 (amended) at a concrete mid-hand call. -/
theorem c10_chips_stay_nonneg_witness :
    (0 : Int) ≤ Poker.PokerState.player_chips
        { player_chips := 980, ai_chips := 980, pot := 40, current_bet := 20,
          player_bet := 20, ai_bet := 20, turn := "ai",
          player_acted := true, ai_acted := false } ∧
    (0 : Int) ≤ Poker.PokerState.ai_chips
        { player_chips := 980, ai_chips := 980, pot := 40, current_bet := 20,
          player_bet := 20, ai_bet := 20, turn := "ai",
          player_acted := true, ai_acted := false } :=
  c10_chips_stay_nonneg.1
    ⟨{ player_chips := 990, ai_chips := 980, pot := 30, current_bet := 20,
       player_bet := 10, ai_bet := 20, turn := "player",
       player_acted := false, ai_acted := false }, []⟩
    "call" 0
    ⟨{ player_chips := 980, ai_chips := 980, pot := 40, current_bet := 20,
       player_bet := 20, ai_bet := 20, turn := "ai",
       player_acted := true, ai_acted := false }, []⟩
    "You called $10"
    (by decide) (by decide) (by decide) (by decide) (by decide) (by decide)
